import Mathlib

/-!
# Verification of the tumblbug monitoring bot (src/bot.py)

Shallow embedding of the monitoring engine of `src/bot.py`:
the per-project price-check step of `check_prices` (lines 349-403), the
custom-threshold pass `check_custom_thresholds` (lines 326-347), the
notification fan-out `send_notifications` (lines 303-315), the threshold-add
command `threshold_add` (lines 743-803), the project-add guard `project_add`
(lines 438-515), the URL helper `extract_project_id` (lines 425-430), and the
lock discipline of `get_driver` / `check_memory_and_restart` (lines 126-182).

Funding amounts and thresholds are Python ints, embedded as `Int`;
Python's floor division `//` is `Int.fdiv`.  A value that Python may hold
as `None` is embedded as an `Option`, and Python truthiness of such a value
(`if not current_funding`, `if not data.get('initial_funding')`) is the
`truthyInt` test below: `none` and `some 0` are both falsy.
-/

namespace TumblbugBot

/-- The fixed milestone granularity: `1000000` in `check_prices` line 386. -/
def UNIT : Int := 1000000

/-- An alert decided by one cycle: a periodic milestone
(`send_milestone_notification`, line 392), a custom threshold crossing
(`check_custom_thresholds`, line 339), or the monitoring-started message
(lines 375-381). -/
inductive Event
  | milestone (value : Int)
  | threshold (value : Int)
  | monitoringStarted (funding : Int)
deriving DecidableEq, Repr

/-- Python truthiness of an optional int: `None` and `0` are falsy,
every other int is truthy. -/
def truthyInt : Option Int → Bool
  | none => false
  | some v => v != 0

/-- Python truthiness of an optional string: `None` and `""` are falsy. -/
def truthyStr : Option String → Bool
  | none => false
  | some s => !s.isEmpty

/-- The per-project state stored in `monitored_urls.{project_id}`:
`initial_funding` (absent before the first successful read) and the custom
`thresholds` list.  `url` and `title` only feed message text and are
omitted. -/
structure ProjectState where
  initial_funding : Option Int
  thresholds : List Int
deriving DecidableEq, Repr, Inhabited

/-- Embeds `check_custom_thresholds` (src/bot.py lines 326-347), the pure
decision part: every threshold `t` with `current_funding >= t` is collected in
`removed_thresholds` and emits a threshold event; when any were collected the
stored list is replaced by `[t for t in thresholds if t not in
removed_thresholds]`, otherwise it is left untouched.  Returns the emitted
events and the resulting thresholds list. -/
def check_custom_thresholds (current_funding : Int) (thresholds : List Int) :
    List Event × List Int :=
  let removed_thresholds := thresholds.filter (fun t => decide (current_funding ≥ t))
  let events := removed_thresholds.map Event.threshold
  let remaining :=
    if removed_thresholds.isEmpty then thresholds
    else thresholds.filter (fun t => decide (t ∉ removed_thresholds))
  (events, remaining)

/-- Embeds the milestone/threshold decision of one `check_prices` iteration
(src/bot.py lines 384-400), the Threshold Engine of the spec.  Everything is
gated on `current_funding > initial_funding` (line 385); inside the gate,
`base = (initial_funding // 1000000) * 1000000`, `next_1m = base + 1000000`,
and a single milestone fires when `current_funding >= next_1m and next_1m >
initial_funding` (line 391), setting the new initial funding to `next_1m`;
then the custom thresholds are checked against the same sample (line 400).
Returns (events, newInitialFunding, remainingThresholds). -/
def thresholdEngine (initial_funding current_funding : Int) (thresholds : List Int) :
    List Event × Int × List Int :=
  if current_funding > initial_funding then
    let base := Int.fdiv initial_funding UNIT * UNIT
    let next_1m := base + UNIT
    let milestone_events :=
      if current_funding ≥ next_1m ∧ next_1m > initial_funding
      then [Event.milestone next_1m] else []
    let new_initial :=
      if current_funding ≥ next_1m ∧ next_1m > initial_funding
      then next_1m else initial_funding
    let checked := check_custom_thresholds current_funding thresholds
    (milestone_events ++ checked.1, new_initial, checked.2)
  else
    ([], initial_funding, thresholds)

/-- Embeds the body of one project's iteration in `check_prices` (src/bot.py
lines 362-400) given the funding value the scrape returned (`none` when
`get_project_data` failed).  `if not current_funding: continue` (line 364)
skips falsy funding; `if not data.get('initial_funding')` (line 368) starts
monitoring and `continue`s; otherwise the engine runs.  Returns the project
state as persisted afterwards and the events emitted. -/
def processProject (data : ProjectState) (current_funding : Option Int) :
    ProjectState × List Event :=
  if truthyInt current_funding then
    let cf := current_funding.getD 0
    if truthyInt data.initial_funding then
      let init := data.initial_funding.getD 0
      let result := thresholdEngine init cf data.thresholds
      ({ data with initial_funding := some result.2.1, thresholds := result.2.2 },
       result.1)
    else
      ({ data with initial_funding := some cf }, [Event.monitoringStarted cf])
  else
    (data, [])

/-- What a call to `get_project_data` did for one project, as seen by
`check_prices`: it returned (with the funding field possibly `None`), or an
exception escaped it (caught by the per-project handler at line 402). -/
inductive ScrapeOutcome
  | ok (funding : Option Int)
  | exn
deriving DecidableEq, Repr, Inhabited

/-- One project's processing including the per-project `try/except` of
`check_prices` (src/bot.py lines 361-403): an escaping exception is logged and
the loop continues with nothing persisted. -/
def processProjectOutcome (data : ProjectState) (outcome : ScrapeOutcome) :
    ProjectState × List Event :=
  match outcome with
  | .exn => (data, [])
  | .ok funding => processProject data funding

/-- The scrape failed for purposes of the scheduler: either an exception
escaped `get_project_data`, or it returned with no funding value
(`ScrapeError` / absent funding in the spec's terms). -/
def readFailed : ScrapeOutcome → Bool
  | .exn => true
  | .ok none => true
  | .ok (some _) => false

/-- Embeds the project loop of one `check_prices` tick over a list of
watched projects, each paired with the outcome its scrape produced this
tick: every project is processed in turn by `processProjectOutcome`. -/
def tick (projects : List (ProjectState × ScrapeOutcome)) :
    List (ProjectState × List Event) :=
  projects.map (fun p => processProjectOutcome p.1 p.2)

/-- What one `channel.send(...)` call did, per the Destination contract:
success, or failure raising `discord.HTTPException`. -/
inductive SendOutcome
  | success
  | httpException
deriving DecidableEq, Repr

/-- The send call itself: raises (as `Except.error`) exactly on failure. -/
def attemptSend : SendOutcome → Except String Unit
  | .success => .ok ()
  | .httpException => .error "HTTPException"

/-- The loop body of `send_notifications` (src/bot.py lines 312-315):
`try: await channel.send(embed=embed) except discord.HTTPException: log`.
Returns whether a delivery failure was logged. -/
def sendToChannel (outcome : SendOutcome) : Except String Bool :=
  tryCatch (do _ ← attemptSend outcome; pure false) (fun _ => pure true)

/-- Embeds the destination loop of `send_notifications` (src/bot.py lines
309-315).  Each registered channel id is paired with `none` when
`self.get_channel(channel_id)` found no channel (the attempt is skipped,
line 311) and with the send's outcome otherwise.  Returns, per attempted
destination in order, whether a failure was logged. -/
def send_notifications : List (Option SendOutcome) → Except String (List Bool)
  | [] => .ok []
  | channel :: rest =>
    match channel with
    | none => send_notifications rest
    | some outcome => do
        let logged ← sendToChannel outcome
        let more ← send_notifications rest
        pure (logged :: more)

/-- Embeds `threshold_add` (src/bot.py lines 743-803), the part that edits the
list: a duplicate amount is rejected (`if amount in thresholds`, line 770);
otherwise the amount is appended and the list sorted ascending
(`thresholds.append(amount); thresholds.sort()`, lines 779-780).  Python's
`list.sort()` is modelled by `List.insertionSort (· ≤ ·)`; on a list of ints
any ascending sort of the same multiset yields the same list, so this is
exact. -/
def threshold_add (amount : Int) (thresholds : List Int) : Option (List Int) :=
  if amount ∈ thresholds then none
  else some (List.insertionSort (· ≤ ·) (thresholds ++ [amount]))

/-- The project document `project_add` (src/bot.py lines 438-515) creates. -/
structure NewProject where
  url : String
  initial_funding : Int
  thresholds : List Int
  title : String
deriving DecidableEq, Repr

/-- Embeds the fetch-result guard of `project_add` (src/bot.py lines 462-496):
`if not project_title or not current_funding:` the add is rejected as a failed
fetch; otherwise the project is stored with the scraped funding as
`initial_funding` and an empty thresholds list. -/
def project_add (url : String) (title : Option String) (funding : Option Int) :
    Option NewProject :=
  if truthyStr title && truthyInt funding then
    some ⟨url, funding.getD 0, [], (title.getD "")⟩
  else
    none

/-- Python `str.strip('/')`: drop the character from both ends. -/
def pyStripSlash (s : String) : String :=
  ⟨((s.data.dropWhile (· == '/')).reverse.dropWhile (· == '/')).reverse⟩

/-- Python `str.split(sep)` for a single-character separator, on the
character list: splitting always yields one more part than there are
separator occurrences, so the result is never empty (`''.split('/') ==
['']`). -/
def pySplitAux (c : Char) : List Char → List Char → List (List Char)
  | [], acc => [acc.reverse]
  | x :: xs, acc =>
    if x == c then acc.reverse :: pySplitAux c xs []
    else pySplitAux c xs (x :: acc)

/-- Python `s.split('/')`. -/
def pySplitSlash (s : String) : List String :=
  (pySplitAux '/' s.data []).map (fun l => ⟨l⟩)

/-- A character CPython's `urllib.parse` accepts inside a URL scheme:
letters, digits, `+`, `-`, `.`. -/
def isSchemeChar (c : Char) : Bool :=
  c.isAlphanum || c == '+' || c == '-' || c == '.'

/-- The scheme-stripping step of CPython's `urlsplit`: when the input has a
`:` preceded by a non-empty run of scheme characters starting with a letter,
drop that `scheme:` prefix; otherwise leave the input unchanged. -/
def stripScheme (l : List Char) : List Char :=
  let pre := l.takeWhile (fun c => c != ':')
  if decide (pre.length < l.length) && !pre.isEmpty &&
      (pre.headD ' ').isAlpha && pre.all isSchemeChar
  then l.drop (pre.length + 1)
  else l

/-- Models Python's `urllib.parse.urlparse(url).path` (standard library, not
repository code), including the error path the bot can hit: after the
optional `scheme:` prefix is stripped, a remainder starting with `//` has its
netloc run to the first `/`, `?` or `#`, and — as in CPython's `urlsplit` — a
mismatched IPv6 bracket in the netloc raises
`ValueError("Invalid IPv6 URL")`; then the fragment (after `#`) and query
(after `?`) are stripped from the remainder, which is the path.  Further
CPython validation of well-bracketed hosts and its control-character
stripping are outside the model's scope. -/
def urlPath (url : String) : Except String String :=
  match stripScheme url.data with
  | '/' :: '/' :: rest =>
    let netloc := rest.takeWhile (fun c => c != '/' && c != '?' && c != '#')
    if (netloc.contains '[' && !netloc.contains ']') ||
        (netloc.contains ']' && !netloc.contains '[') then
      .error "Invalid IPv6 URL"
    else
      .ok ⟨((rest.drop netloc.length).takeWhile (fun c => c != '#')).takeWhile
            (fun c => c != '?')⟩
  | u => .ok ⟨(u.takeWhile (fun c => c != '#')).takeWhile (fun c => c != '?')⟩

/-- Embeds `extract_project_id` (src/bot.py lines 425-430):
`path_parts = urlparse(url).path.strip('/').split('/')`; a `ValueError`
raised inside `urlparse` propagates to the caller; otherwise, if the list is
truthy (non-empty) return its first element, else raise `ValueError`
(both raises embedded as `Except.error`). -/
def extract_project_id (url : String) : Except String String :=
  match urlPath url with
  | .error e => .error e
  | .ok path =>
    match pySplitSlash (pyStripSlash path) with
    | p :: _ => .ok p
    | [] => .error "cannot extract project id"

/-- The two tasks that touch the shared `self.driver` session. -/
inductive Agent
  | scraper
  | watchdog
deriving DecidableEq, Repr

/-- The places in src/bot.py where the shared session is accessed. -/
inductive AccessSite
  | getDriverLazyInit
  | pageNavigation
  | elementReads
  | watchdogQuit
deriving DecidableEq, Repr

/-- One access to the shared browser session, and whether the statement
performing it executes while `self.driver_lock` is held. -/
structure SessionAccess where
  agent : Agent
  site : AccessSite
  underDriverLock : Bool
deriving DecidableEq, Repr

/-- Transcribed from src/bot.py: every place the shared `self.driver` session
is touched, and whether that statement runs inside `async with
self.driver_lock`.  `get_driver` (lines 148-182) wraps only the lazy creation
and return of the driver in the lock; `get_project_data` (lines 184-245) calls
`driver.get(url)` and performs the element waits/reads after `get_driver` has
returned, i.e. after the `async with` block released the lock; the memory
watchdog `check_memory_and_restart` (lines 126-135) calls `self.driver.quit()`
without acquiring the lock at all. -/
def sessionAccesses : List SessionAccess :=
  [⟨.scraper, .getDriverLazyInit, true⟩,
   ⟨.scraper, .pageNavigation, false⟩,
   ⟨.scraper, .elementReads, false⟩,
   ⟨.watchdog, .watchdogQuit, false⟩]

/-- `true` exactly on milestone events. -/
def isMilestone : Event → Bool
  | .milestone _ => true
  | _ => false

/-- Number of milestone events in an event list. -/
def milestoneCount (events : List Event) : Nat :=
  (events.filter isMilestone).length

/-! ## Helper lemmas -/

theorem UNIT_pos : (0 : Int) < UNIT := by decide

theorem UNIT_ne_zero : UNIT ≠ 0 := by decide

/-- `(a // UNIT) * UNIT ≤ a`: the rounded-down base never exceeds `a`. -/
theorem base_le (a : Int) : Int.fdiv a UNIT * UNIT ≤ a := by
  have h := Int.fdiv_add_fmod a UNIT
  have h2 := Int.fmod_nonneg' a UNIT_pos
  simp only [UNIT] at *
  omega

/-- `a < (a // UNIT) * UNIT + UNIT`: the next milestone is strictly above `a`,
so the `next_1m > initial_funding` conjunct of line 391 always holds. -/
theorem lt_base_add (a : Int) : a < Int.fdiv a UNIT * UNIT + UNIT := by
  have h := Int.lt_fdiv_add_one_mul_self a UNIT_pos
  rw [Int.add_mul, Int.one_mul] at h
  exact h

/-- Rounding an exact next-milestone value down again is the identity. -/
theorem next_base (a : Int) :
    Int.fdiv (Int.fdiv a UNIT * UNIT + UNIT) UNIT * UNIT
      = Int.fdiv a UNIT * UNIT + UNIT := by
  have h : Int.fdiv a UNIT * UNIT + UNIT = (Int.fdiv a UNIT + 1) * UNIT := by ring
  rw [h, Int.mul_fdiv_cancel _ UNIT_ne_zero]

theorem ccts_events (cf : Int) (ts : List Int) :
    (check_custom_thresholds cf ts).1
      = (ts.filter (fun t => decide (cf ≥ t))).map Event.threshold := rfl

theorem ccts_remaining (cf : Int) (ts : List Int) :
    (check_custom_thresholds cf ts).2
      = (if (ts.filter (fun t => decide (cf ≥ t))).isEmpty then ts
         else ts.filter
           (fun t => decide (t ∉ ts.filter (fun t => decide (cf ≥ t))))) := rfl

/-- Every threshold kept by `check_custom_thresholds` is strictly above the
sampled funding. -/
theorem ccts_remaining_lt (cf : Int) (ts : List Int) :
    ∀ t ∈ (check_custom_thresholds cf ts).2, cf < t := by
  intro t ht
  rw [ccts_remaining] at ht
  split at ht
  · next he =>
    have hnil := List.isEmpty_iff.mp he
    have := List.filter_eq_nil_iff.mp hnil t ht
    simp only [decide_eq_true_eq] at this
    omega
  · next he =>
    have hm := List.mem_filter.mp ht
    have hnotin := of_decide_eq_true hm.2
    by_cases hge : cf ≥ t
    · exact absurd (List.mem_filter.mpr ⟨hm.1, by simpa using hge⟩) hnotin
    · omega

/-- When no stored threshold is crossed, `check_custom_thresholds` emits
nothing and leaves the list untouched. -/
theorem ccts_no_cross (cf : Int) (ts : List Int) (h : ∀ t ∈ ts, cf < t) :
    check_custom_thresholds cf ts = ([], ts) := by
  have hfil : ts.filter (fun t => decide (cf ≥ t)) = [] := by
    refine List.filter_eq_nil_iff.mpr ?_
    intro a ha
    have := h a ha
    simp only [decide_eq_true_eq]
    omega
  simp [check_custom_thresholds, hfil]

/-- A crossed threshold produces its event. -/
theorem ccts_crossed (cf t : Int) (ts : List Int) (ht : t ∈ ts) (hcross : t ≤ cf) :
    Event.threshold t ∈ (check_custom_thresholds cf ts).1 := by
  rw [ccts_events]
  exact List.mem_map_of_mem _ (List.mem_filter.mpr ⟨ht, by simpa using hcross⟩)

/-- Every threshold whose event was emitted is absent from the remaining
list. -/
theorem ccts_emitted_absent (cf : Int) (ts : List Int) :
    ∀ v, Event.threshold v ∈ (check_custom_thresholds cf ts).1 →
      v ∉ (check_custom_thresholds cf ts).2 := by
  intro v hv hv2
  have hlt := ccts_remaining_lt cf ts v hv2
  rw [ccts_events] at hv
  rcases List.mem_map.mp hv with ⟨u, hu, huv⟩
  have huv2 : u = v := by
    injection huv
  subst huv2
  have := of_decide_eq_true (List.mem_filter.mp hu).2
  omega

/-- The remaining list after a cycle is still sorted strictly ascending. -/
theorem ccts_remaining_sorted (cf : Int) (ts : List Int)
    (hs : List.Sorted (· < ·) ts) :
    List.Sorted (· < ·) (check_custom_thresholds cf ts).2 := by
  rw [ccts_remaining]
  split
  · exact hs
  · exact hs.filter _

/-- Evaluated form of the engine when funding increased. -/
theorem thresholdEngine_pos (init cf : Int) (ts : List Int) (h : init < cf) :
    thresholdEngine init cf ts =
      ((if cf ≥ Int.fdiv init UNIT * UNIT + UNIT ∧
            Int.fdiv init UNIT * UNIT + UNIT > init
        then [Event.milestone (Int.fdiv init UNIT * UNIT + UNIT)] else []) ++
        (check_custom_thresholds cf ts).1,
       (if cf ≥ Int.fdiv init UNIT * UNIT + UNIT ∧
            Int.fdiv init UNIT * UNIT + UNIT > init
        then Int.fdiv init UNIT * UNIT + UNIT else init),
       (check_custom_thresholds cf ts).2) := by
  unfold thresholdEngine
  split
  · rfl
  · next hneg => exact absurd h hneg

/-- Evaluated form of the engine when funding did not increase. -/
theorem thresholdEngine_nonpos (init cf : Int) (ts : List Int) (h : ¬ init < cf) :
    thresholdEngine init cf ts = ([], init, ts) := by
  unfold thresholdEngine
  split
  · next hpos => exact absurd hpos h
  · rfl

theorem milestoneCount_append (l1 l2 : List Event) :
    milestoneCount (l1 ++ l2) = milestoneCount l1 + milestoneCount l2 := by
  simp [milestoneCount, List.filter_append]

theorem milestoneCount_threshold_map (l : List Int) :
    milestoneCount (l.map Event.threshold) = 0 := by
  simp [milestoneCount, isMilestone]

theorem pySplitAux_ne_nil (c : Char) (l : List Char) :
    ∀ acc, pySplitAux c l acc ≠ [] := by
  induction l with
  | nil => intro acc; simp [pySplitAux]
  | cons x xs ih =>
    intro acc
    simp only [pySplitAux]
    split
    · simp
    · exact ih _

theorem pySplitSlash_ne_nil (s : String) : pySplitSlash s ≠ [] := by
  simp only [pySplitSlash, ne_eq, List.map_eq_nil_iff]
  exact pySplitAux_ne_nil '/' s.data []

/-! ## Claims -/

/-- C1: for every `previousInitialFunding < currentFunding` one pricing cycle
emits at most one `MilestoneEvent`; its value is
`floor(previousInitialFunding / 1000000) * 1000000 + 1000000` and, when it is
emitted, `newInitialFunding` is set to that value; in particular
`previousInitialFunding = 900000`, `currentFunding = 1050000` yields
`MilestoneEvent 1000000` and `newInitialFunding = 1000000`. -/
theorem milestone_per_cycle_unique_and_value
    (init cf : Int) (ts : List Int) (h : init < cf) :
    milestoneCount (thresholdEngine init cf ts).1 ≤ 1 ∧
    (∀ v, Event.milestone v ∈ (thresholdEngine init cf ts).1 →
      v = Int.fdiv init UNIT * UNIT + UNIT ∧
      (thresholdEngine init cf ts).2.1 = v) ∧
    thresholdEngine 900000 1050000 [] = ([Event.milestone 1000000], 1000000, []) := by
  have hchar := thresholdEngine_pos init cf ts h
  refine ⟨?_, ?_, by decide⟩
  · rw [hchar]
    show milestoneCount (_ ++ _) ≤ 1
    rw [milestoneCount_append, ccts_events, milestoneCount_threshold_map]
    split
    · simp [milestoneCount, isMilestone]
    · simp [milestoneCount]
  · intro v hv
    rw [hchar] at hv ⊢
    show v = _ ∧ (if _ then _ else init) = v
    rcases List.mem_append.mp hv with hl | hr
    · by_cases hc : cf ≥ Int.fdiv init UNIT * UNIT + UNIT ∧
          Int.fdiv init UNIT * UNIT + UNIT > init
      · rw [if_pos hc] at hl
        rw [if_pos hc]
        have : v = Int.fdiv init UNIT * UNIT + UNIT := by
          have := List.mem_singleton.mp hl
          injection this
        exact ⟨this, this.symm⟩
      · rw [if_neg hc] at hl
        exact absurd hl (List.not_mem_nil _)
    · rw [ccts_events] at hr
      rcases List.mem_map.mp hr with ⟨u, _, huv⟩
      exact absurd huv (by intro hh; exact Event.noConfusion hh)

/-- C1 witness: the theorem applied at the spec's concrete scenario. -/
theorem milestone_per_cycle_unique_and_value_witness :
    (900000 : Int) < 1050000 ∧
    (milestoneCount (thresholdEngine 900000 1050000 []).1 ≤ 1 ∧
     (∀ v, Event.milestone v ∈ (thresholdEngine 900000 1050000 []).1 →
       v = Int.fdiv 900000 UNIT * UNIT + UNIT ∧
       (thresholdEngine 900000 1050000 []).2.1 = v) ∧
     thresholdEngine 900000 1050000 [] = ([Event.milestone 1000000], 1000000, [])) :=
  ⟨by decide, milestone_per_cycle_unique_and_value 900000 1050000 [] (by decide)⟩

/-- C2 counterexample: with `previousInitialFunding = 100`, `currentFunding =
100` and a stored threshold `50`, the crossed threshold (`100 ≥ 50`) emits no
event and is not removed, because the whole custom-threshold pass of
`check_prices` runs only under `current_funding > initial_funding`; this
refutes the claim that threshold events fire even when
`currentFunding <= previousInitialFunding`. -/
theorem threshold_gated_on_increase_cex :
    (100 : Int) ≤ 100 ∧ (50 : Int) ≤ 100 ∧
    thresholdEngine 100 100 [50] = ([], 100, [50]) := by decide

/-- C2 amended: provided `currentFunding > previousInitialFunding`, every
threshold `t` in the stored list with `currentFunding ≥ t` produces
`ThresholdEvent t` and is removed from the remaining set, and the remaining
set is exactly what `check_custom_thresholds` computes — independent of the
milestone sub-check; when funding did not increase the pass is skipped
entirely. -/
theorem threshold_fire_requires_increase (init cf t : Int) (ts : List Int)
    (hgt : init < cf) (ht : t ∈ ts) (hcross : t ≤ cf) :
    Event.threshold t ∈ (thresholdEngine init cf ts).1 ∧
    t ∉ (thresholdEngine init cf ts).2.2 ∧
    (thresholdEngine init cf ts).2.2 = (check_custom_thresholds cf ts).2 := by
  rw [thresholdEngine_pos init cf ts hgt]
  refine ⟨?_, ?_, rfl⟩
  · exact List.mem_append_right _ (ccts_crossed cf t ts ht hcross)
  · exact ccts_emitted_absent cf ts t (ccts_crossed cf t ts ht hcross)

/-- C2 amended witness: threshold 200 with funding rising 100 → 300. -/
theorem threshold_fire_requires_increase_witness :
    ((100 : Int) < 300 ∧ (200 : Int) ∈ ([200] : List Int) ∧ (200 : Int) ≤ 300) ∧
    (Event.threshold 200 ∈ (thresholdEngine 100 300 [200]).1 ∧
     (200 : Int) ∉ (thresholdEngine 100 300 [200]).2.2 ∧
     (thresholdEngine 100 300 [200]).2.2 = (check_custom_thresholds 300 [200]).2) :=
  ⟨⟨by decide, by decide, by decide⟩,
   threshold_fire_requires_increase 100 300 200 [200]
     (by decide) (by decide) (by decide)⟩

/-- C4 counterexample: `previousInitialFunding = 900000`, `currentFunding =
2500000`, no thresholds.  The first run emits `MilestoneEvent 1000000` and
sets `newInitialFunding = 1000000`; immediately re-running the engine on
`(1000000, 2500000, [])` emits a further `MilestoneEvent 2000000`, refuting
the claimed idempotence. -/
theorem engine_rerun_not_idempotent_cex :
    thresholdEngine 900000 2500000 [] = ([Event.milestone 1000000], 1000000, []) ∧
    thresholdEngine 1000000 2500000 [] = ([Event.milestone 2000000], 2000000, []) := by
  decide

/-- C4 amended: re-running the engine on `(newInitialFunding, currentFunding,
remainingThresholds)` produces no further events and leaves the state fixed,
provided `currentFunding < newInitialFunding + UNIT` — i.e. unless the sampled
funding had already jumped past a further milestone, in which case the
one-step-per-tick policy emits the next `MilestoneEvent` on the re-run (never
a further `ThresholdEvent`). -/
theorem engine_rerun_quiescent_within_unit (init cf : Int) (ts : List Int)
    (h : cf < (thresholdEngine init cf ts).2.1 + UNIT) :
    thresholdEngine (thresholdEngine init cf ts).2.1 cf
        (thresholdEngine init cf ts).2.2
      = ([], (thresholdEngine init cf ts).2.1, (thresholdEngine init cf ts).2.2) := by
  by_cases h1 : init < cf
  · have hB : (thresholdEngine init cf ts).2.2 = (check_custom_thresholds cf ts).2 := by
      rw [thresholdEngine_pos init cf ts h1]
    by_cases hm : cf ≥ Int.fdiv init UNIT * UNIT + UNIT
    · have hA : (thresholdEngine init cf ts).2.1
          = Int.fdiv init UNIT * UNIT + UNIT := by
        rw [thresholdEngine_pos init cf ts h1]
        exact if_pos ⟨hm, lt_base_add init⟩
      rw [hA] at h
      rw [hA, hB]
      by_cases h2 : Int.fdiv init UNIT * UNIT + UNIT < cf
      · have hno : ¬ (cf ≥ Int.fdiv init UNIT * UNIT + UNIT + UNIT ∧
            Int.fdiv init UNIT * UNIT + UNIT + UNIT
              > Int.fdiv init UNIT * UNIT + UNIT) :=
          fun hc => absurd hc.1 (not_le.mpr h)
        rw [thresholdEngine_pos _ cf _ h2,
          ccts_no_cross cf (check_custom_thresholds cf ts).2 (ccts_remaining_lt cf ts),
          next_base init]
        simp [hno]
        exact ⟨fun hle => absurd hle (not_le.mpr h),
               fun hle _ => absurd hle (not_le.mpr h)⟩
      · exact thresholdEngine_nonpos _ cf _ h2
    · have hno : ¬ (cf ≥ Int.fdiv init UNIT * UNIT + UNIT ∧
          Int.fdiv init UNIT * UNIT + UNIT > init) :=
        fun hc => hm hc.1
      have hA : (thresholdEngine init cf ts).2.1 = init := by
        rw [thresholdEngine_pos init cf ts h1]
        exact if_neg hno
      rw [hA, hB]
      rw [thresholdEngine_pos init cf _ h1,
        ccts_no_cross cf (check_custom_thresholds cf ts).2 (ccts_remaining_lt cf ts)]
      simp [hno]
  · have he := thresholdEngine_nonpos init cf ts h1
    rw [he]
    show thresholdEngine init cf ts = ([], init, ts)
    exact he

/-- C4 amended witness: after the milestone at 1000000 fires (funding 900000 →
1050000, one threshold 1020000 crossed), the immediate re-run on the new state
emits nothing and changes nothing. -/
theorem engine_rerun_quiescent_within_unit_witness :
    (1050000 : Int) < (thresholdEngine 900000 1050000 [1020000]).2.1 + UNIT ∧
    thresholdEngine (thresholdEngine 900000 1050000 [1020000]).2.1 1050000
        (thresholdEngine 900000 1050000 [1020000]).2.2
      = ([], (thresholdEngine 900000 1050000 [1020000]).2.1,
         (thresholdEngine 900000 1050000 [1020000]).2.2) :=
  ⟨by decide, engine_rerun_quiescent_within_unit 900000 1050000 [1020000] (by decide)⟩

/-- C3: for a watched project whose threshold list is sorted strictly
ascending (equivalently, ascending and duplicate-free), both mutating
operations preserve that invariant: a pricing cycle's removal of crossed
thresholds yields a sorted duplicate-free list with every emitted threshold
absent, and a successful `threshold_add` yields a sorted duplicate-free
list. -/
theorem threshold_list_invariants (cf amount : Int) (ts : List Int)
    (hs : List.Sorted (· < ·) ts) :
    List.Sorted (· < ·) (check_custom_thresholds cf ts).2 ∧
    (∀ v, Event.threshold v ∈ (check_custom_thresholds cf ts).1 →
      v ∉ (check_custom_thresholds cf ts).2) ∧
    (∀ ts2, threshold_add amount ts = some ts2 → List.Sorted (· < ·) ts2) := by
  refine ⟨ccts_remaining_sorted cf ts hs, ccts_emitted_absent cf ts, ?_⟩
  intro ts2 hadd
  unfold threshold_add at hadd
  split at hadd
  · exact absurd hadd (by simp)
  · next hnotmem =>
    have hts2 : ts2 = List.insertionSort (· ≤ ·) (ts ++ [amount]) := by
      injection hadd with hh
      exact hh.symm
    subst hts2
    have hsorted : List.Sorted (· ≤ ·) (List.insertionSort (· ≤ ·) (ts ++ [amount])) :=
      List.sorted_insertionSort _ _
    have hnd : (ts ++ [amount]).Nodup := by
      rw [← List.concat_eq_append]
      exact List.Nodup.concat hnotmem hs.nodup
    have hnd2 : (List.insertionSort (· ≤ ·) (ts ++ [amount])).Nodup :=
      ((List.perm_insertionSort _ _).nodup_iff).mpr hnd
    exact hsorted.lt_of_le hnd2

/-- C3 witness: funding 300 crosses both stored thresholds, and adding 150 to
`[100, 200]` keeps the list sorted and duplicate-free. -/
theorem threshold_list_invariants_witness :
    List.Sorted (· < ·) ([100, 200] : List Int) ∧
    (List.Sorted (· < ·) (check_custom_thresholds 300 [100, 200]).2 ∧
     (∀ v, Event.threshold v ∈ (check_custom_thresholds 300 [100, 200]).1 →
       v ∉ (check_custom_thresholds 300 [100, 200]).2) ∧
     (∀ ts2, threshold_add 150 [100, 200] = some ts2 →
       List.Sorted (· < ·) ts2)) :=
  ⟨by decide, threshold_list_invariants 300 150 [100, 200] (by decide)⟩

/-- C5: in a tick, a project whose read failed (exception or absent funding)
keeps its stored state unchanged and emits no events, the tick still
processes every project (one output per input, each depending only on that
project's own state and outcome), so one project's failure never aborts the
others. -/
theorem scheduler_skips_failed_project
    (ps : List (ProjectState × ScrapeOutcome)) (i : Nat)
    (st : ProjectState) (o : ScrapeOutcome)
    (hget : ps[i]? = some (st, o)) (hfail : readFailed o = true) :
    (tick ps).length = ps.length ∧
    (tick ps)[i]? = some (st, []) ∧
    (∀ (j : Nat) (q : ProjectState × ScrapeOutcome), ps[j]? = some q →
      (tick ps)[j]? = some (processProjectOutcome q.1 q.2)) := by
  have hmap : ∀ (j : Nat) (q : ProjectState × ScrapeOutcome), ps[j]? = some q →
      (tick ps)[j]? = some (processProjectOutcome q.1 q.2) := by
    intro j q hq
    show (ps.map _)[j]? = _
    rw [List.getElem?_map, hq]
    rfl
  refine ⟨by simp [tick], ?_, hmap⟩
  rw [hmap i (st, o) hget]
  have hskip : processProjectOutcome st o = (st, []) := by
    cases o with
    | exn => rfl
    | ok f =>
      cases f with
      | none => rfl
      | some v => simp [readFailed] at hfail
  rw [hskip]

/-- C5 witness: two projects under one tenant; the first scrape raises, the
second succeeds.  Only the second project's state changes, and both are
processed. -/
theorem scheduler_skips_failed_project_witness :
    readFailed ScrapeOutcome.exn = true ∧
    ((tick [(⟨some 100, [50]⟩, ScrapeOutcome.exn),
            (⟨some 900000, []⟩, ScrapeOutcome.ok (some 1050000))]).length
        = ([(⟨some 100, [50]⟩, ScrapeOutcome.exn),
            (⟨some 900000, []⟩, ScrapeOutcome.ok (some 1050000))]
             : List (ProjectState × ScrapeOutcome)).length ∧
     (tick [(⟨some 100, [50]⟩, ScrapeOutcome.exn),
            (⟨some 900000, []⟩, ScrapeOutcome.ok (some 1050000))])[0]?
        = some (⟨some 100, [50]⟩, []) ∧
     (∀ (j : Nat) (q : ProjectState × ScrapeOutcome),
       ([(⟨some 100, [50]⟩, ScrapeOutcome.exn),
         (⟨some 900000, []⟩, ScrapeOutcome.ok (some 1050000))]
           : List (ProjectState × ScrapeOutcome))[j]? = some q →
       (tick [(⟨some 100, [50]⟩, ScrapeOutcome.exn),
              (⟨some 900000, []⟩, ScrapeOutcome.ok (some 1050000))])[j]?
         = some (processProjectOutcome q.1 q.2))) :=
  ⟨rfl, scheduler_skips_failed_project _ 0 ⟨some 100, [50]⟩ ScrapeOutcome.exn rfl rfl⟩

/-- C6: the dispatcher attempts delivery to every registered destination in
order; a delivery failure (`HTTPException`) is logged and neither prevents
the attempts to the remaining destinations nor raises to the caller — the
result is always `ok`, with one entry per attempted destination recording
whether its failure was logged. -/
theorem dispatcher_isolates_delivery_failures (channels : List (Option SendOutcome)) :
    send_notifications channels =
      .ok ((channels.filterMap id).map (fun o => o == SendOutcome.httpException)) := by
  induction channels with
  | nil => rfl
  | cons c rest ih =>
    cases c with
    | none =>
      show send_notifications rest = _
      rw [ih]
      rfl
    | some o =>
      have hs : sendToChannel o = .ok (o == SendOutcome.httpException) := by
        cases o <;> rfl
      show (do
        let logged ← sendToChannel o
        let more ← send_notifications rest
        pure (logged :: more) : Except String (List Bool)) = _
      rw [hs, ih]
      rfl

/-- C7 counterexample: the transcription of every access to the shared
browser session shows accesses made without holding `driver_lock` — the
memory watchdog's `driver.quit()` among them — refuting the claim that every
session access is serialized under the lock. -/
theorem session_access_lock_cex :
    ¬ (∀ a ∈ sessionAccesses, a.underDriverLock = true) := by decide

/-- C7 amended: the lock guards exactly the lazy creation/lookup of the
session inside `get_driver`; the page navigation and element reads of a
scrape run after the lock is released, and the memory watchdog's teardown
takes no lock at all. -/
theorem session_lock_only_guards_lazy_init :
    ∀ a ∈ sessionAccesses,
      (a.underDriverLock = true ↔ a.site = AccessSite.getDriverLazyInit) := by
  decide

/-- C7 amended witness: the watchdog's teardown access, concretely. -/
theorem session_lock_only_guards_lazy_init_witness :
    (⟨Agent.watchdog, AccessSite.watchdogQuit, false⟩ : SessionAccess)
        ∈ sessionAccesses ∧
    ((⟨Agent.watchdog, AccessSite.watchdogQuit, false⟩
        : SessionAccess).underDriverLock = true ↔
     (⟨Agent.watchdog, AccessSite.watchdogQuit, false⟩
        : SessionAccess).site = AccessSite.getDriverLazyInit) :=
  ⟨by decide, session_lock_only_guards_lazy_init _ (by decide)⟩

/-- C8: a scraped funding amount of `0` is treated exactly like an absent
one: the scheduler skips the project without mutating its state, and the
add command rejects the project as a failed fetch — `0` is
indistinguishable from a scrape failure at the public interface. -/
theorem zero_funding_indistinguishable_from_failure
    (st : ProjectState) (url : String) (title : Option String) :
    processProject st (some 0) = processProject st none ∧
    processProject st (some 0) = (st, []) ∧
    project_add url title (some 0) = none := by
  refine ⟨rfl, rfl, ?_⟩
  simp [project_add, truthyInt]

/-- C9 counterexample: `extract_project_id "http://["` raises `ValueError`
after all — not from its own line-430 branch but propagated from
`urlparse`, which rejects the mismatched IPv6 bracket in the netloc; so the
function is not total over every URL string. -/
theorem extract_project_id_ipv6_cex :
    extract_project_id "http://[" = .error "Invalid IPv6 URL" := rfl

/-- C9 amended: the function's own `ValueError` branch (line 430) is
unreachable — whenever `urlparse` returns a path, splitting the stripped
path always yields a non-empty list and `extract_project_id` returns its
first element; the only way the function raises is a `ValueError`
propagated out of `urlparse` itself on a malformed netloc.  In particular
`https://tumblbug.com/`, whose path is empty after stripping, yields the
empty string as the project identifier. -/
theorem extract_project_id_ok_of_urlparse_ok :
    (∀ url path, urlPath url = .ok path → ∃ s, extract_project_id url = .ok s) ∧
    extract_project_id "https://tumblbug.com/" = .ok "" := by
  constructor
  · intro url path hp
    have h := pySplitSlash_ne_nil (pyStripSlash path)
    cases hm : pySplitSlash (pyStripSlash path) with
    | nil => exact absurd hm h
    | cons p rest =>
      refine ⟨p, ?_⟩
      simp [extract_project_id, hp, hm]
  · rfl

/-- C9 amended witness: a well-formed project URL, on which `urlparse`
succeeds and the identifier is extracted. -/
theorem extract_project_id_ok_of_urlparse_ok_witness :
    urlPath "https://tumblbug.com/abcd" = .ok "/abcd" ∧
    (∃ s, extract_project_id "https://tumblbug.com/abcd" = .ok s) :=
  ⟨rfl, extract_project_id_ok_of_urlparse_ok.1 "https://tumblbug.com/abcd" "/abcd" rfl⟩

/-- C10: on the first successful read of a project whose `initial_funding`
is unset, the cycle only records the current funding as initial, emits the
monitoring-started notification and skips the rest: the thresholds list is
untouched and no threshold event is emitted, even when the funding already
meets some stored threshold. -/
theorem first_read_skips_thresholds (st : ProjectState) (cf : Int)
    (hunset : truthyInt st.initial_funding = false) (hcf : cf ≠ 0) :
    processProject st (some cf) =
      ({ st with initial_funding := some cf }, [Event.monitoringStarted cf]) ∧
    (processProject st (some cf)).1.thresholds = st.thresholds ∧
    (∀ t, Event.threshold t ∉ (processProject st (some cf)).2) := by
  have h1 : truthyInt (some cf) = true := by simp [truthyInt, hcf]
  have heq : processProject st (some cf) =
      ({ st with initial_funding := some cf }, [Event.monitoringStarted cf]) := by
    simp [processProject, h1, hunset]
  refine ⟨heq, by rw [heq], ?_⟩
  intro t
  rw [heq]
  simp

/-- C10 witness: `initial_funding` unset, one stored threshold 500 already
met by the first reading 1000 — still only the monitoring-started event. -/
theorem first_read_skips_thresholds_witness :
    truthyInt (⟨none, [500]⟩ : ProjectState).initial_funding = false ∧
    (1000 : Int) ≠ 0 ∧
    (processProject ⟨none, [500]⟩ (some 1000) =
       ({ (⟨none, [500]⟩ : ProjectState) with initial_funding := some 1000 },
        [Event.monitoringStarted 1000]) ∧
     (processProject ⟨none, [500]⟩ (some 1000)).1.thresholds
        = (⟨none, [500]⟩ : ProjectState).thresholds ∧
     (∀ t, Event.threshold t ∉ (processProject ⟨none, [500]⟩ (some 1000)).2)) :=
  ⟨rfl, by decide, first_read_skips_thresholds ⟨none, [500]⟩ 1000 rfl (by decide)⟩

end TumblbugBot
